import Mathlib

/-!
Shallow embedding of the youngsphere progress/ranking subsystem
(openedx/core/djangoapps/youngsphere/progress/models.py) and of the two
site middlewares (openedx/core/djangoapps/youngsphere/sites/middleware.py),
together with theorems settling the frozen claims about them.

Conventions of the embedding:
- Django querysets over a table are lists of rows; a chained filter is a
  List.filter, a join against a many-to-many relation multiplies a row by
  the number of matching related rows (List.replicate inside flatMap), and
  a call to distinct() is List.dedup.
- Course keys and user ids are natural numbers; timestamps are naturals;
  the completions column (an IntegerField) is an Int.
- Fallible paths return Except PyError. In particular, Django 1.11 (the
  version pinned by the repository migrations) raises TypeError while
  building an IN lookup whose right-hand side is None: exclude with
  user__id__in=None therefore errors out, which the model reproduces.
- CourseEnrollment rows are unique per (user, course) in edx, so the
  enrollment join is modelled as a Boolean predicate rather than a
  multiplicity.
-/

/-- A django.contrib.auth User joined with its one-to-one profile (title and
profile image timestamp) and its many-to-many organization and group
memberships. -/
structure UserRec where
  id : Nat
  username : String
  is_active : Bool
  title : String
  profile_image_uploaded_at : Nat
  organizations : List Nat
  groups : List Nat
deriving DecidableEq, Repr

/-- A CourseEnrollment row (unique per user and course in edx). -/
structure CourseEnrollment where
  user_id : Nat
  course_id : Nat
  is_active : Bool
deriving DecidableEq, Repr

/-- A StudentProgress row: per (user, course) completions counter with the
indexed modified timestamp used as ranking tie-break. -/
structure StudentProgress where
  user_id : Nat
  course_id : Nat
  completions : Int
  modified : Nat
deriving DecidableEq, Repr

/-- The database state the progress queries read. -/
structure ProgressDb where
  users : List UserRec
  enrollments : List CourseEnrollment
  progress : List StudentProgress
deriving Repr

/-- The python exceptions the modelled paths can raise. -/
inductive PyError
  | typeError
deriving DecidableEq, Repr

/-- Follow the user foreign key of a row. -/
def userLookup (db : ProgressDb) (uid : Nat) : Option UserRec :=
  db.users.find? (fun u => u.id == uid)

/-- Join condition user__is_active=True (a dangling foreign key never joins). -/
def userActive (db : ProgressDb) (uid : Nat) : Bool :=
  match userLookup db uid with
  | some u => u.is_active
  | none => false

/-- Join condition user__courseenrollment__is_active=True together with
user__courseenrollment__course_id__exact=course_key, both placed in the same
filter call and hence on the same joined enrollment row. -/
def enrollmentActive (db : ProgressDb) (uid : Nat) (cid : Nat) : Bool :=
  db.enrollments.any (fun e => e.user_id == uid && e.course_id == cid && e.is_active)

/-- The queryset shared by get_total_completions, get_num_users_started and
generate_leaderboard: course rows whose owner is active and actively
enrolled in that course. -/
def baseFilter (db : ProgressDb) (course_key : Nat) : List StudentProgress :=
  db.progress.filter (fun r =>
    r.course_id == course_key && userActive db r.user_id && enrollmentActive db r.user_id course_key)

/-- The chained exclude with user__id__in=exclude_users. Building the IN
lookup iterates the right-hand side, so the None default raises TypeError
in Django 1.11; a supplied list removes its members. -/
def applyExcludeUsers (l : List StudentProgress) :
    Option (List Nat) → Except PyError (List StudentProgress)
  | none => .error .typeError
  | some excl => .ok (l.filter (fun r => !(excl.contains r.user_id)))

/-- Number of organizations of the row owner matching the org filter: the
multiplicity the user__organizations__in join gives the row. -/
def orgMatchCount (db : ProgressDb) (uid : Nat) (org_ids : List Nat) : Nat :=
  match userLookup db uid with
  | some u => u.organizations.countP (fun o => org_ids.contains o)
  | none => 0

/-- Number of groups of the row owner matching the group filter. -/
def groupMatchCount (db : ProgressDb) (uid : Nat) (group_ids : List Nat) : Nat :=
  match userLookup db uid with
  | some u => u.groups.countP (fun g => group_ids.contains g)
  | none => 0

/-- The guarded org filter: the branch runs only when org_ids is truthy
(neither None nor empty); it joins without any distinct call, so a user in
several matching organizations keeps several copies of their row. -/
def applyOrgFilter (db : ProgressDb) (l : List StudentProgress) :
    Option (List Nat) → List StudentProgress
  | none => l
  | some [] => l
  | some (o :: os) =>
      l.flatMap (fun r => List.replicate (orgMatchCount db r.user_id (o :: os)) r)

/-- The guarded group filter followed by distinct(), as used by
get_total_completions and generate_leaderboard. -/
def applyGroupFilter (db : ProgressDb) (l : List StudentProgress) :
    Option (List Nat) → List StudentProgress
  | none => l
  | some [] => l
  | some (g :: gs) =>
      (l.flatMap (fun r => List.replicate (groupMatchCount db r.user_id (g :: gs)) r)).dedup

/-- The guarded group filter of get_num_users_started, which has no distinct
call inside the branch (the method calls distinct() once at the end). -/
def applyGroupFilterNoDistinct (db : ProgressDb) (l : List StudentProgress) :
    Option (List Nat) → List StudentProgress
  | none => l
  | some [] => l
  | some (g :: gs) =>
      l.flatMap (fun r => List.replicate (groupMatchCount db r.user_id (g :: gs)) r)

/-- StudentProgress.get_total_completions: sum of completions over the
filtered queryset. -/
def StudentProgress_get_total_completions (db : ProgressDb) (course_key : Nat)
    (exclude_users org_ids group_ids : Option (List Nat)) : Except PyError Int := do
  let q := baseFilter db course_key
  let q ← applyExcludeUsers q exclude_users
  let q := applyOrgFilter db q org_ids
  let q := applyGroupFilter db q group_ids
  return (q.map (fun r => r.completions)).sum

/-- StudentProgress.get_num_users_started: distinct().count() over the
filtered queryset. -/
def StudentProgress_get_num_users_started (db : ProgressDb) (course_key : Nat)
    (exclude_users org_ids group_ids : Option (List Nat)) : Except PyError Nat := do
  let q := baseFilter db course_key
  let q ← applyExcludeUsers q exclude_users
  let q := applyOrgFilter db q org_ids
  let q := applyGroupFilterNoDistinct db q group_ids
  return q.dedup.length

/-- The result dict of get_user_position. -/
structure PositionData where
  completions : Int
  position : Nat
deriving DecidableEq, Repr

/-- The filter Q(completions__gt=c) | Q(completions=c, modified__lt=m) of
get_user_position: the comparison row strictly beats the subject row. -/
def beats (row r : StudentProgress) : Bool :=
  r.completions > row.completions ||
    (r.completions == row.completions && r.modified < row.modified)

/-- StudentProgress.get_user_position. A missing summary row is the
DoesNotExist branch and yields the zero dict before any exclude lookup is
built; a present row counts the active rows of the course that beat it,
with the exclusion applied to that comparison population only. -/
def StudentProgress_get_user_position (db : ProgressDb) (course_key : Nat) (user_id : Nat)
    (exclude_users : Option (List Nat)) : Except PyError PositionData :=
  match db.progress.find? (fun r => r.course_id == course_key && r.user_id == user_id) with
  | none => .ok { completions := 0, position := 0 }
  | some row => do
      let above := db.progress.filter (fun r =>
        beats row r && r.course_id == course_key && userActive db r.user_id)
      let above ← applyExcludeUsers above exclude_users
      return { completions := row.completions, position := above.length + 1 }

/-- One row of generate_leaderboard's values() projection. -/
structure LeaderboardEntry where
  user_id : Nat
  username : String
  title : String
  profile_image_uploaded_at : Nat
  completions : Int
deriving DecidableEq, Repr

/-- The order_by('-completions', 'modified') comparator: completions
descending, then modified ascending. -/
def boardLe (a b : StudentProgress) : Prop :=
  b.completions < a.completions ∨ (a.completions = b.completions ∧ a.modified ≤ b.modified)

instance : DecidableRel boardLe := fun a b => by
  unfold boardLe
  exact inferInstance

instance : IsTotal StudentProgress boardLe := by
  constructor
  intro a b
  unfold boardLe
  omega

instance : IsTrans StudentProgress boardLe := by
  constructor
  intro a b c
  unfold boardLe
  omega

/-- Python slicing qs[:count]: a None bound keeps everything. -/
def pySlice {α : Type} (count : Option Nat) (l : List α) : List α :=
  match count with
  | none => l
  | some n => l.take n

/-- The values() projection of generate_leaderboard: user id, username,
profile title, profile image timestamp and the row's completions. The
fallback branch is unreachable for rows that passed the is_active join. -/
def projectEntry (db : ProgressDb) (r : StudentProgress) : LeaderboardEntry :=
  match userLookup db r.user_id with
  | some u =>
      { user_id := u.id, username := u.username, title := u.title
        profile_image_uploaded_at := u.profile_image_uploaded_at
        completions := r.completions }
  | none =>
      { user_id := r.user_id, username := "", title := ""
        profile_image_uploaded_at := 0, completions := r.completions }

/-- The row set generate_leaderboard orders and projects: base queryset,
exclusion, org filter, group filter with distinct. -/
def leaderboardQueryset (db : ProgressDb) (course_key : Nat)
    (exclude_users org_ids group_ids : Option (List Nat)) :
    Except PyError (List StudentProgress) := do
  let q := baseFilter db course_key
  let q ← applyExcludeUsers q exclude_users
  let q := applyOrgFilter db q org_ids
  let q := applyGroupFilter db q group_ids
  return q

/-- StudentProgress.generate_leaderboard: the filtered rows ordered by the
composite comparator (the hidden modified column included), sliced to count
and projected to entries. -/
def StudentProgress_generate_leaderboard (db : ProgressDb) (course_key : Nat)
    (count : Option Nat) (exclude_users org_ids group_ids : Option (List Nat)) :
    Except PyError (List LeaderboardEntry) := do
  let q ← leaderboardQueryset db course_key exclude_users org_ids group_ids
  return (pySlice count (List.insertionSort boardLe q)).map (projectEntry db)

/-! ## CourseModuleCompletion.get_actual_completions -/

/-- A CourseModuleCompletion row. -/
structure CourseModuleCompletion where
  user_id : Nat
  course_id : String
  content_id : String
  stage : Option String
deriving DecidableEq, Repr

/-- Python str.strip(): whitespace removed from both ends. -/
def pyStrip (s : String) : String :=
  ⟨((s.toList.dropWhile Char.isWhitespace).reverse.dropWhile Char.isWhitespace).reverse⟩

/-- Whether the first character list occurs contiguously inside the second. -/
def listIsInfixOf (needle : List Char) : List Char → Bool
  | [] => needle.isPrefixOf []
  | c :: t => needle.isPrefixOf (c :: t) || listIsInfixOf needle t

/-- Python substring containment, needle in hay. -/
def strContains (hay needle : String) : Bool :=
  listIsInfixOf needle.toList hay.toList

/-- One Q(content_id__contains=item.strip()) predicate. -/
def qContentIdContains (item : String) (e : CourseModuleCompletion) : Bool :=
  strContains e.content_id (pyStrip item)

/-- Python 2 reduce(lambda a, b: a | b, cat_list): folds the Q objects into
one disjunction, and raises TypeError on an empty sequence because no
initial value is supplied. -/
def pyReduceOr : List (CourseModuleCompletion → Bool) →
    Except PyError (CourseModuleCompletion → Bool)
  | [] => .error .typeError
  | f :: fs => .ok (fs.foldl (fun acc g => fun e => acc e || g e) f)

/-- CourseModuleCompletion.get_actual_completions, with the configured
PROGRESS_DETACHED_CATEGORIES list and the table contents as inputs: builds
one containment predicate per configured category, reduces them with |, and
excludes the matching rows. -/
def CourseModuleCompletion_get_actual_completions (detached_categories : List String)
    (events : List CourseModuleCompletion) : Except PyError (List CourseModuleCompletion) := do
  let cat_list := detached_categories.map (fun item => qContentIdContains item)
  let p ← pyReduceOr cat_list
  return events.filter (fun e => !(p e))

/-! ## Site middlewares -/

/-- A key/value cache with per-entry absolute expiry, as seen through the
Django cache get/set interface; set with a timeout stores now + timeout. -/
structure Cache (α : Type) where
  entries : List (String × α × Nat)
deriving Repr

/-- Cache read at a point in time: the newest entry under the key, provided
it has not expired. -/
def Cache.get {α : Type} (c : Cache α) (now : Nat) (k : String) : Option α :=
  match c.entries.find? (fun e => e.fst == k) with
  | some (_, v, expiry) => if now < expiry then some v else none
  | none => none

/-- Cache write: the new entry shadows any older one under the same key. -/
def Cache.set {α : Type} (c : Cache α) (k : String) (v : α) (expiry : Nat) : Cache α :=
  ⟨(k, v, expiry) :: c.entries⟩

/-- Settings read by CustomDomainsRedirectMiddleware. The second field is
the CUSTOM_DOMAINS_REDIRECT_CACHE_KEY_PREF IX setting, the third the
corresponding cache timeout. -/
structure DomainSettings where
  SITE_NAME : String
  cacheKeyPref : String
  cacheTimeout : Nat
deriving Repr

/-- Modelled from the spec: the AlternativeDomain table (sites/models.py is
not part of the source tree; per spec section 3 it is a one-to-one mapping
from a custom hostname to a site). Each pair is (domain, site.domain), so
select_related('site').get(domain=hostname).site.domain is a lookup by the
first component. -/
structure AltDomainDb where
  altDomains : List (String × String)
deriving Repr

/-- AlternativeDomain.objects.select_related('site').get(domain=hostname)
followed by .site.domain, with DoesNotExist as none. -/
def alternativeDomainLookup (db : AltDomainDb) (hostname : String) : Option String :=
  (db.altDomains.find? (fun p => p.fst == hostname)).map (fun p => p.snd)

/-- Python str.endswith. -/
def strEndsWith (s tail : String) : Bool :=
  tail.toList.isSuffixOf s.toList

/-- Observable outcome of one CustomDomainsRedirectMiddleware.process_request
call: the cache afterwards, the redirect response if any, and whether the
call touched the AlternativeDomain table, read the cache, or wrote it. -/
structure DomainStepResult where
  cache : Cache String
  response : Option String
  dbQueried : Bool
  cacheRead : Bool
  cacheWritten : Bool
deriving Repr

/-- CustomDomainsRedirectMiddleware.process_request. Hostnames not ending in
SITE_NAME fall through the guard untouched; otherwise the per-hostname cache
is consulted, the table is queried only on a cache miss, the result
(the empty string standing for a negative result, distinct from a missing
entry) is cached with the configured timeout, and a non-empty mapping
produces a redirect to https. -/
def CustomDomainsRedirectMiddleware_process_request (S : DomainSettings) (db : AltDomainDb)
    (cache : Cache String) (now : Nat) (hostname : String) : DomainStepResult :=
  if strEndsWith hostname S.SITE_NAME then
    let cache_key := S.cacheKeyPref ++ "-" ++ hostname
    match cache.get now cache_key with
    | some custom_domain =>
        { cache := cache
          response := if custom_domain ≠ "" then some ("https://" ++ custom_domain) else none
          dbQueried := false, cacheRead := true, cacheWritten := false }
    | none =>
        let custom_domain :=
          match alternativeDomainLookup db hostname with
          | some d => d
          | none => ""
        { cache := cache.set cache_key custom_domain (now + S.cacheTimeout)
          response := if custom_domain ≠ "" then some ("https://" ++ custom_domain) else none
          dbQueried := true, cacheRead := true, cacheWritten := true }
  else
    { cache := cache, response := none
      dbQueried := false, cacheRead := false, cacheWritten := false }

/-- Settings read by RedirectMiddleware. A None whitelist models the
MAIN_SITE_REDIRECT_WHITELIST setting being absent, so that evaluating the
whitelist expression raises. The third field is the REDIRECT_CACHE_KEY_PREF
IX setting, the fourth the redirect cache timeout. -/
structure RedirectSettings where
  SITE_ID : Nat
  MAIN_SITE_REDIRECT_WHITELIST : Option (List String)
  redirectKeyPref : String
  redirectTimeout : Nat
deriving Repr

/-- The request's site, as resolved before the policy check. -/
structure SiteRec where
  id : Nat
  domain : String
deriving DecidableEq, Repr

/-- A django.contrib.redirects Redirect row. -/
structure RedirectRule where
  site_id : Nat
  old_path : String
  new_path : String
deriving DecidableEq, Repr

/-- The three possible outcomes of RedirectMiddleware.process_request:
no redirect, the 302 to the fixed admin URL, or a 301 from the table. -/
inductive RmwResponse
  | noRedirect
  | redirectTemp (url : String)
  | redirectPerm (url : String)
deriving DecidableEq, Repr

/-- Result of one RedirectMiddleware.process_request call. -/
structure RmwResult where
  cache : Cache (List (String × String))
  response : RmwResponse
deriving Repr

/-- Evaluation of the body of the try block: the whitelist expression is
evaluated first (raising if the setting is absent), then the site id is
compared with SITE_ID and the whitelist containment negated. -/
def mainSitePolicy (S : RedirectSettings) (site : SiteRec) (path : String) :
    Except PyError Bool :=
  match S.MAIN_SITE_REDIRECT_WHITELIST with
  | none => .error .typeError
  | some wl =>
      .ok (decide (site.id = S.SITE_ID) && !(wl.any (fun p => strContains path p)))

/-- Python dict built by a left-to-right comprehension: a later pair with the
same key overwrites an earlier one, so lookup takes the last match. -/
def pyDictGet (prs : List (String × String)) (k : String) : Option String :=
  (prs.reverse.find? (fun p => p.fst == k)).map (fun p => p.snd)

/-- The part of RedirectMiddleware.process_request after the policy check:
per-site redirect dict from the cache, rebuilt from the Redirect table and
cached on a miss, then a permanent redirect if the path is mapped. -/
def redirectTableLookup (S : RedirectSettings) (rules : List RedirectRule)
    (cache : Cache (List (String × String))) (now : Nat) (site : SiteRec) (path : String) :
    RmwResult :=
  let cache_key := S.redirectKeyPref ++ "-" ++ site.domain
  match cache.get now cache_key with
  | some redirects =>
      match pyDictGet redirects path with
      | some new_path => { cache := cache, response := .redirectPerm new_path }
      | none => { cache := cache, response := .noRedirect }
  | none =>
      let redirects := (rules.filter (fun r => r.site_id == site.id)).map
        (fun r => (r.old_path, r.new_path))
      let cache' := cache.set cache_key redirects (now + S.redirectTimeout)
      match pyDictGet redirects path with
      | some new_path => { cache := cache', response := .redirectPerm new_path }
      | none => { cache := cache', response := .noRedirect }

/-- RedirectMiddleware.process_request: if the policy evaluates to true the
fixed admin redirect is returned; on a false result or on an exception
(swallowed by the bare except) the table lookup runs instead. -/
def RedirectMiddleware_process_request (S : RedirectSettings) (rules : List RedirectRule)
    (cache : Cache (List (String × String))) (now : Nat) (site : SiteRec) (path : String) :
    RmwResult :=
  match mainSitePolicy S site path with
  | .ok true => { cache := cache, response := .redirectTemp "https://youngsphere.com/admin/" }
  | .ok false => redirectTableLookup S rules cache now site path
  | .error _ => redirectTableLookup S rules cache now site path

/-! ## Well-formedness and concrete fixtures -/

/-- The unique_together (user, course_id) constraint of StudentProgress:
no two rows of the table agree on both the user and the course. -/
def ProgressDb.wf (db : ProgressDb) : Prop :=
  db.progress.Pairwise (fun r1 r2 => ¬(r1.user_id = r2.user_id ∧ r1.course_id = r2.course_id))

/-- A small concrete database: two active users enrolled in course 1 with
tied completions, alice having reached the score first. -/
def sampleDb : ProgressDb :=
  { users := [
      { id := 1, username := "alice", is_active := true, title := "Engineer"
        profile_image_uploaded_at := 10, organizations := [10], groups := [20, 21] },
      { id := 2, username := "bob", is_active := true, title := "Analyst"
        profile_image_uploaded_at := 11, organizations := [10], groups := [20] } ]
    enrollments := [⟨1, 1, true⟩, ⟨2, 1, true⟩]
    progress := [⟨1, 1, 5, 100⟩, ⟨2, 1, 5, 200⟩] }

/-- Settings fixture for the custom-domains middleware. -/
def exDomainSettings : DomainSettings :=
  { SITE_NAME := "youngsphere.com", cacheKeyPref := "custom-domains", cacheTimeout := 300 }

/-- AlternativeDomain fixture: one mapping, for a hostname other than the
one the negative-caching tests use. -/
def exAltDb : AltDomainDb :=
  { altDomains := [("mapped.youngsphere.com", "custom.example.org")] }

/-- Settings fixture whose whitelist setting is absent, so the main-site
policy raises while being evaluated. -/
def exRedirectSettingsErr : RedirectSettings :=
  { SITE_ID := 7, MAIN_SITE_REDIRECT_WHITELIST := none
    redirectKeyPref := "redirects", redirectTimeout := 60 }

/-- Settings fixture whose policy evaluates without error. -/
def exRedirectSettingsOk : RedirectSettings :=
  { SITE_ID := 7, MAIN_SITE_REDIRECT_WHITELIST := some []
    redirectKeyPref := "redirects", redirectTimeout := 60 }

/-- A non-primary site. -/
def exSite : SiteRec := { id := 3, domain := "school.example.org" }

/-- One redirect rule for the fixture site. -/
def exRules : List RedirectRule := [{ site_id := 3, old_path := "/old/", new_path := "/new/" }]

/-! ## Helper lemmas -/

theorem wf_unique {db : ProgressDb} (hwf : db.wf) {r1 r2 : StudentProgress}
    (h1 : r1 ∈ db.progress) (h2 : r2 ∈ db.progress)
    (hu : r1.user_id = r2.user_id) (hc : r1.course_id = r2.course_id) : r1 = r2 := by
  by_contra hne
  have hsymm : Symmetric (fun a b : StudentProgress =>
      ¬(a.user_id = b.user_id ∧ a.course_id = b.course_id)) := by
    intro a b hab hba
    exact hab ⟨hba.1.symm, hba.2.symm⟩
  exact (List.Pairwise.forall hsymm hwf h1 h2 hne) ⟨hu, hc⟩

theorem wf_nodup {db : ProgressDb} (hwf : db.wf) : db.progress.Nodup := by
  refine hwf.imp ?_
  intro a b h hab
  exact h ⟨by rw [hab], by rw [hab]⟩

theorem find?_progress_eq {db : ProgressDb} (hwf : db.wf) {row : StudentProgress}
    (hr : row ∈ db.progress) {c uid : Nat} (hc : row.course_id = c) (hu : row.user_id = uid) :
    db.progress.find? (fun r => r.course_id == c && r.user_id == uid) = some row := by
  have hsome : (db.progress.find? (fun r => r.course_id == c && r.user_id == uid)).isSome :=
    List.find?_isSome.mpr ⟨row, hr, by simp [hc, hu]⟩
  obtain ⟨r2, hr2⟩ := Option.isSome_iff_exists.mp hsome
  have hpr := List.find?_some hr2
  have hmem := List.mem_of_find?_eq_some hr2
  simp only [Bool.and_eq_true, beq_iff_eq] at hpr
  have heq2 : r2 = row := wf_unique hwf hmem hr (by rw [hpr.2, hu]) (by rw [hpr.1, hc])
  rw [hr2, heq2]

theorem gup_eq_of_row {db : ProgressDb} (hwf : db.wf) {row : StudentProgress}
    (hr : row ∈ db.progress) {c uid : Nat} (hc : row.course_id = c) (hu : row.user_id = uid)
    (el : List Nat) :
    StudentProgress_get_user_position db c uid (some el) =
      .ok { completions := row.completions
            position := ((db.progress.filter (fun r =>
                beats row r && r.course_id == c && userActive db r.user_id)).filter
              (fun r => !(el.contains r.user_id))).length + 1 } := by
  unfold StudentProgress_get_user_position
  rw [find?_progress_eq hwf hr hc hu]
  rfl

theorem countP_lt_of_witness {α : Type} {l : List α} {p q : α → Bool}
    (hmono : ∀ x ∈ l, p x = true → q x = true) {a : α} (ha : a ∈ l)
    (hp : p a = false) (hq : q a = true) : l.countP p < l.countP q := by
  induction l with
  | nil => cases ha
  | cons b t ih =>
      rw [List.countP_cons, List.countP_cons]
      have hmono' : ∀ x ∈ t, p x = true → q x = true :=
        fun x hx => hmono x (List.mem_cons_of_mem _ hx)
      rcases List.mem_cons.mp ha with rfl | hat
      · have hle : t.countP p ≤ t.countP q := List.countP_mono_left hmono'
        rw [hp, hq]
        show t.countP p + 0 < t.countP q + 1
        omega
      · have hlt : t.countP p < t.countP q := ih hmono' hat
        have h1 : (if p b = true then 1 else 0) ≤ (if q b = true then 1 else 0) := by
          by_cases hpb : p b = true
          · rw [if_pos hpb, if_pos (hmono b (List.mem_cons_self b t) hpb)]
          · rw [if_neg hpb]
            omega
        omega

theorem mem_flatMap_replicate {α : Type} (k : α → Nat) (l : List α) (y : α) :
    y ∈ l.flatMap (fun x => List.replicate (k x) x) ↔ (y ∈ l ∧ k y ≠ 0) := by
  constructor
  · intro h
    obtain ⟨x, hx, hy⟩ := List.mem_flatMap.mp h
    obtain ⟨hk, rfl⟩ := List.mem_replicate.mp hy
    exact ⟨hx, hk⟩
  · intro h
    exact List.mem_flatMap.mpr ⟨y, h.1, List.mem_replicate.mpr ⟨h.2, rfl⟩⟩

theorem dedup_perm_filter {α : Type} [DecidableEq α] {L M : List α} (hL : L.Nodup)
    {q : α → Bool} (hmem : ∀ y, y ∈ M ↔ (y ∈ L ∧ q y = true)) :
    M.dedup.Perm (L.filter q) := by
  rw [List.perm_iff_count]
  intro a
  by_cases hmemA : a ∈ L.filter q
  · have haM : a ∈ M.dedup := List.mem_dedup.mpr ((hmem a).mpr (List.mem_filter.mp hmemA))
    rw [List.count_eq_one_of_mem (List.nodup_dedup M) haM,
      List.count_eq_one_of_mem (hL.filter q) hmemA]
  · have haM : a ∉ M.dedup :=
      fun h => hmemA (List.mem_filter.mpr ((hmem a).mp (List.mem_dedup.mp h)))
    rw [List.count_eq_zero_of_not_mem haM, List.count_eq_zero_of_not_mem hmemA]

theorem projectEntry_user_id (db : ProgressDb) (r : StudentProgress) :
    (projectEntry db r).user_id = r.user_id := by
  unfold projectEntry
  cases hfind : userLookup db r.user_id with
  | none => rfl
  | some u =>
      have hp := List.find?_some hfind
      simp only [beq_iff_eq] at hp
      exact hp

theorem pySlice_sublist {α : Type} (c : Option Nat) (l : List α) :
    (pySlice c l).Sublist l := by
  cases c with
  | none => exact List.Sublist.refl l
  | some n => exact List.take_sublist n l

theorem pySlice_getElem {α : Type} (c : Option Nat) (l : List α) (i : Nat)
    (h1 : i < (pySlice c l).length) (h2 : i < l.length) : (pySlice c l)[i] = l[i] := by
  cases c with
  | none => rfl
  | some n => exact List.getElem_take l

theorem Cache.get_set_same {α : Type} (c : Cache α) (k : String) (v : α)
    (expiry now : Nat) (h : now < expiry) : (c.set k v expiry).get now k = some v := by
  unfold Cache.set Cache.get
  rw [List.find?_cons]
  simp [h]

theorem beats_true_iff (row r : StudentProgress) :
    beats row r = true ↔
      (row.completions < r.completions ∨
        (r.completions = row.completions ∧ r.modified < row.modified)) := by
  unfold beats
  simp [gt_iff_lt]

theorem beats_mono {rowA rowB x : StudentProgress}
    (heq : rowA.completions = rowB.completions) (hmod : rowA.modified < rowB.modified)
    (h : beats rowA x = true) : beats rowB x = true := by
  rw [beats_true_iff] at h ⊢
  omega

theorem sorted_rows_order {Q : List StudentProgress} {rowA rowB : StudentProgress}
    (count : Option Nat)
    (huA : ∀ r ∈ Q, r.user_id = rowA.user_id → r = rowA)
    (huB : ∀ r ∈ Q, r.user_id = rowB.user_id → r = rowB)
    (heq : rowA.completions = rowB.completions) (hmod : rowA.modified < rowB.modified) :
    (∀ (i j : Nat) (hi : i < (pySlice count (List.insertionSort boardLe Q)).length)
        (hj : j < (pySlice count (List.insertionSort boardLe Q)).length),
      ((pySlice count (List.insertionSort boardLe Q))[i]).user_id = rowB.user_id →
      ((pySlice count (List.insertionSort boardLe Q))[j]).user_id = rowA.user_id → j < i) ∧
    (rowA ∈ Q → ∀ (i : Nat) (hi : i < (pySlice count (List.insertionSort boardLe Q)).length),
      ((pySlice count (List.insertionSort boardLe Q))[i]).user_id = rowB.user_id →
      ∃ j, ∃ hj : j < (pySlice count (List.insertionSort boardLe Q)).length,
        j < i ∧ ((pySlice count (List.insertionSort boardLe Q))[j]).user_id = rowA.user_id) := by
  have hsorted : List.Sorted boardLe (List.insertionSort boardLe Q) :=
    List.sorted_insertionSort boardLe Q
  have hperm : (List.insertionSort boardLe Q).Perm Q := List.perm_insertionSort boardLe Q
  have hsub := pySlice_sublist count (List.insertionSort boardLe Q)
  have hsorted' : List.Sorted boardLe (pySlice count (List.insertionSort boardLe Q)) :=
    List.Pairwise.sublist hsub hsorted
  have hgetB : ∀ (i : Nat) (hi : i < (pySlice count (List.insertionSort boardLe Q)).length),
      ((pySlice count (List.insertionSort boardLe Q))[i]).user_id = rowB.user_id →
      (pySlice count (List.insertionSort boardLe Q))[i] = rowB := by
    intro i hi hid
    exact huB _ ((hperm.mem_iff).mp (List.Sublist.mem (List.getElem_mem hi) hsub)) hid
  have hgetA : ∀ (j : Nat) (hj : j < (pySlice count (List.insertionSort boardLe Q)).length),
      ((pySlice count (List.insertionSort boardLe Q))[j]).user_id = rowA.user_id →
      (pySlice count (List.insertionSort boardLe Q))[j] = rowA := by
    intro j hj hid
    exact huA _ ((hperm.mem_iff).mp (List.Sublist.mem (List.getElem_mem hj) hsub)) hid
  have hAB : rowA ≠ rowB := by
    intro h
    rw [h] at hmod
    omega
  have hnotLe : ¬ boardLe rowB rowA := by
    unfold boardLe
    omega
  constructor
  · intro i j hi hj hiB hjA
    have hBi := hgetB i hi hiB
    have hAj := hgetA j hj hjA
    rcases Nat.lt_trichotomy j i with h | h | h
    · exact h
    · exfalso
      subst h
      exact hAB (hAj.symm.trans hBi)
    · exfalso
      have hle := (List.pairwise_iff_getElem.mp hsorted') i j hi hj h
      rw [hBi, hAj] at hle
      exact hnotLe hle
  · intro hAQ i hi hiB
    have hBi := hgetB i hi hiB
    have hAmem : rowA ∈ List.insertionSort boardLe Q := (hperm.mem_iff).mpr hAQ
    obtain ⟨j0, hj0, hj0eq⟩ := List.getElem_of_mem hAmem
    have hi3 : i < (List.insertionSort boardLe Q).length :=
      lt_of_lt_of_le hi hsub.length_le
    have hBi3 : (List.insertionSort boardLe Q)[i] = rowB := by
      rw [← pySlice_getElem count _ i hi hi3]
      exact hBi
    have hj0i : j0 < i := by
      rcases Nat.lt_trichotomy j0 i with h | h | h
      · exact h
      · exfalso
        subst h
        exact hAB (hj0eq.symm.trans hBi3)
      · exfalso
        have hle := (List.pairwise_iff_getElem.mp hsorted) i j0 hi3 hj0 h
        rw [hBi3, hj0eq] at hle
        exact hnotLe hle
    have hj0len : j0 < (pySlice count (List.insertionSort boardLe Q)).length :=
      lt_trans hj0i hi
    refine ⟨j0, hj0len, hj0i, ?_⟩
    rw [pySlice_getElem count _ j0 hj0len hj0, hj0eq]

theorem sum_group_dedup (db : ProgressDb) (E : List StudentProgress) (hE : E.Nodup)
    (org_ids : Option (List Nat)) (g : Nat) (gs : List Nat) :
    ((applyGroupFilter db (applyOrgFilter db E org_ids) (some (g :: gs))).map
        (fun r => r.completions)).sum =
      ((E.filter (fun r =>
          (match org_ids with
            | none => true
            | some [] => true
            | some (o :: os) => orgMatchCount db r.user_id (o :: os) != 0)
          && groupMatchCount db r.user_id (g :: gs) != 0)).map
        (fun r => r.completions)).sum := by
  have hmem : ∀ y, y ∈ (applyOrgFilter db E org_ids).flatMap
      (fun r => List.replicate (groupMatchCount db r.user_id (g :: gs)) r) ↔
      (y ∈ E ∧ ((match org_ids with
          | none => true
          | some [] => true
          | some (o :: os) => orgMatchCount db y.user_id (o :: os) != 0)
        && groupMatchCount db y.user_id (g :: gs) != 0) = true) := by
    intro y
    rw [mem_flatMap_replicate]
    cases org_ids with
    | none => simp [applyOrgFilter, bne_iff_ne]
    | some os0 =>
        cases os0 with
        | nil => simp [applyOrgFilter, bne_iff_ne]
        | cons o os =>
            simp only [applyOrgFilter, mem_flatMap_replicate, Bool.and_eq_true, bne_iff_ne,
              ne_eq, and_assoc]
  have hperm := dedup_perm_filter hE hmem
  exact List.Perm.sum_eq (List.Perm.map _ hperm)

/-! ## Claim theorems -/

/-- C4: for every course and user id with no ProgressSummary row,
get_user_position returns completions 0 and position 0 without raising,
whatever rows other users have and whatever the exclude_users argument is
(the DoesNotExist branch returns before any exclude lookup is built). -/
theorem C4_missing_row_zero_result (db : ProgressDb) (c uid : Nat)
    (hno : ∀ r ∈ db.progress, ¬(r.course_id = c ∧ r.user_id = uid))
    (exclude_users : Option (List Nat)) :
    StudentProgress_get_user_position db c uid exclude_users =
      .ok { completions := 0, position := 0 } := by
  unfold StudentProgress_get_user_position
  have hfind : db.progress.find? (fun r => r.course_id == c && r.user_id == uid) = none := by
    rw [List.find?_eq_none]
    intro x hx hP
    simp only [Bool.and_eq_true, beq_iff_eq] at hP
    exact hno x hx hP
  rw [hfind]

/-- C4 witness: user 99 has no row for course 1 in the sample database. -/
theorem C4_missing_row_zero_result_witness :
    StudentProgress_get_user_position sampleDb 1 99 none =
      .ok { completions := 0, position := 0 } :=
  C4_missing_row_zero_result sampleDb 1 99 (by decide) none

/-- C9: with the default empty PROGRESS_DETACHED_CATEGORIES list,
get_actual_completions raises (reduce over an empty sequence of Q objects);
with at least one configured category it completes normally. -/
theorem C9_empty_detached_categories_raise (detached_categories : List String)
    (events : List CourseModuleCompletion) :
    (detached_categories = [] →
      CourseModuleCompletion_get_actual_completions detached_categories events =
        .error .typeError) ∧
    (detached_categories ≠ [] →
      ∃ l, CourseModuleCompletion_get_actual_completions detached_categories events = .ok l) := by
  constructor
  · intro h
    subst h
    rfl
  · intro h
    cases detached_categories with
    | nil => exact absurd rfl h
    | cons a t => exact ⟨_, rfl⟩

/-- C9 witness: the empty configuration raises, a one-element one succeeds. -/
theorem C9_empty_detached_categories_raise_witness :
    CourseModuleCompletion_get_actual_completions [] [] = .error .typeError ∧
    ∃ l, CourseModuleCompletion_get_actual_completions ["video"] [] = .ok l :=
  ⟨(C9_empty_detached_categories_raise [] []).1 rfl,
    (C9_empty_detached_categories_raise ["video"] []).2 (by decide)⟩

/-- C10: a hostname that does not end in the platform SITE_NAME passes
through CustomDomainsRedirectMiddleware untouched: no redirect, no cache
read, no cache write, no AlternativeDomain query. -/
theorem C10_non_platform_hostname_untouched (S : DomainSettings) (db : AltDomainDb)
    (cache : Cache String) (now : Nat) (hostname : String)
    (h : strEndsWith hostname S.SITE_NAME = false) :
    CustomDomainsRedirectMiddleware_process_request S db cache now hostname =
      { cache := cache, response := none, dbQueried := false
        cacheRead := false, cacheWritten := false } := by
  simp [CustomDomainsRedirectMiddleware_process_request, h]

/-- C10 witness: a hostname outside the platform suffix. -/
theorem C10_non_platform_hostname_untouched_witness :
    CustomDomainsRedirectMiddleware_process_request exDomainSettings exAltDb ⟨[]⟩ 0
        "other.example.org" =
      { cache := ⟨[]⟩, response := none, dbQueried := false
        cacheRead := false, cacheWritten := false } :=
  C10_non_platform_hostname_untouched exDomainSettings exAltDb ⟨[]⟩ 0 "other.example.org"
    (by decide)

/-- C8: an exception while evaluating the main-site redirect policy is
swallowed; the request is processed exactly as when the policy declines to
redirect, for any settings pair that agrees on the fields the rest of the
middleware reads. -/
theorem C8_policy_exception_swallowed (S Sd : RedirectSettings) (rules : List RedirectRule)
    (cache : Cache (List (String × String))) (now : Nat) (site : SiteRec) (path : String)
    (herr : mainSitePolicy S site path = .error .typeError)
    (hdecl : mainSitePolicy Sd site path = .ok false)
    (hpref : S.redirectKeyPref = Sd.redirectKeyPref)
    (htime : S.redirectTimeout = Sd.redirectTimeout) :
    RedirectMiddleware_process_request S rules cache now site path =
      RedirectMiddleware_process_request Sd rules cache now site path := by
  unfold RedirectMiddleware_process_request
  rw [herr, hdecl]
  unfold redirectTableLookup
  rw [hpref, htime]

/-- C8 witness: the absent-whitelist settings behave like the declining
settings on a concrete request. -/
theorem C8_policy_exception_swallowed_witness :
    RedirectMiddleware_process_request exRedirectSettingsErr exRules ⟨[]⟩ 0 exSite "/old/" =
      RedirectMiddleware_process_request exRedirectSettingsOk exRules ⟨[]⟩ 0 exSite "/old/" :=
  C8_policy_exception_swallowed exRedirectSettingsErr exRedirectSettingsOk exRules ⟨[]⟩ 0 exSite
    "/old/" rfl rfl rfl rfl

/-- C6: the truthiness-guarded org_ids and group_ids filters treat absence
as no restriction, but an absent exclude_users reaches
exclude(user__id__in=None) and raises TypeError instead of behaving like
the empty exclusion, in all four operations that build the lookup. -/
theorem C6_absent_exclude_users_raises :
    StudentProgress_get_total_completions sampleDb 1 none none none = .error .typeError ∧
    StudentProgress_get_total_completions sampleDb 1 (some []) none none = .ok 10 ∧
    StudentProgress_get_num_users_started sampleDb 1 none none none = .error .typeError ∧
    StudentProgress_get_num_users_started sampleDb 1 (some []) none none = .ok 2 ∧
    StudentProgress_get_user_position sampleDb 1 1 none = .error .typeError ∧
    StudentProgress_get_user_position sampleDb 1 1 (some []) =
      .ok { completions := 5, position := 1 } ∧
    StudentProgress_generate_leaderboard sampleDb 1 none none none none = .error .typeError ∧
    StudentProgress_get_total_completions sampleDb 1 (some []) none none =
      StudentProgress_get_total_completions sampleDb 1 (some []) (some []) (some []) ∧
    StudentProgress_get_num_users_started sampleDb 1 (some []) none none =
      StudentProgress_get_num_users_started sampleDb 1 (some []) (some []) (some []) :=
  ⟨rfl, rfl, rfl, rfl, rfl, rfl, rfl, rfl, rfl⟩

/-- C1 counterexample: with the defaulted (absent) exclude_users both
get_user_position calls and the generate_leaderboard call raise TypeError
for two tied users, so neither function ranks them at all under that
argument combination. -/
theorem C1_counterexample_absent_exclude :
    StudentProgress_get_user_position sampleDb 1 1 none = .error .typeError ∧
    StudentProgress_get_user_position sampleDb 1 2 none = .error .typeError ∧
    StudentProgress_generate_leaderboard sampleDb 1 (some 5) none none none =
      .error .typeError :=
  ⟨rfl, rfl, rfl⟩

/-- C3 counterexample: one combination of the optional filters (absent
exclude_users) makes generate_leaderboard raise TypeError instead of
returning the sorted entries. -/
theorem C3_counterexample_absent_exclude :
    StudentProgress_generate_leaderboard sampleDb 1 (some 10) none none none =
      .error .typeError :=
  rfl

/-- The sample database satisfies the unique_together constraint. -/
theorem sampleDb_wf : sampleDb.wf := by
  unfold ProgressDb.wf
  decide

/-- C2: for a user with a summary row, get_user_position returns the row's
completions and 1 plus the number of active rows of the course that
strictly beat it (higher completions, or equal completions with earlier
modified), with the supplied exclusion removing rows from the comparison
population only and never preventing the subject lookup. -/
theorem C2_user_position_counts_beating_rows (db : ProgressDb) (c uid : Nat) (el : List Nat)
    (row : StudentProgress) (hwf : db.wf) (hr : row ∈ db.progress)
    (hc : row.course_id = c) (hu : row.user_id = uid) :
    StudentProgress_get_user_position db c uid (some el) =
      .ok { completions := row.completions
            position := 1 + db.progress.countP (fun r =>
              beats row r && r.course_id == c && userActive db r.user_id
                && !(el.contains r.user_id)) } := by
  rw [gup_eq_of_row hwf hr hc hu el]
  have hpos : ((db.progress.filter (fun r =>
        beats row r && r.course_id == c && userActive db r.user_id)).filter
      (fun r => !(el.contains r.user_id))).length + 1 =
      1 + db.progress.countP (fun r =>
        beats row r && r.course_id == c && userActive db r.user_id
          && !(el.contains r.user_id)) := by
    rw [List.filter_filter, ← List.countP_eq_length_filter, Nat.add_comm]
    congr 1
    apply List.countP_congr
    intro x hx
    cases hb : beats row x <;> cases hcs : (x.course_id == c) <;>
      cases ha : userActive db x.user_id <;> cases he : (el.contains x.user_id) <;>
      simp
  rw [hpos]

/-- C2 witness: bob is beaten only by alice (equal score, earlier modified),
so his position is 2 and his stored completions are returned. -/
theorem C2_user_position_counts_beating_rows_witness :
    StudentProgress_get_user_position sampleDb 1 2 (some []) =
      .ok { completions := 5, position := 2 } := by
  rw [C2_user_position_counts_beating_rows sampleDb 1 2 [] ⟨2, 1, 5, 200⟩ sampleDb_wf
    (by decide) rfl rfl]
  rfl

/-- C3 (amended): with exclude_users supplied, generate_leaderboard returns
the qualifying rows ordered by completions descending then modified
ascending, truncated to the limit when one is given and complete when the
limit is absent, each row projected to (user id, username, title, profile
image timestamp, completions). -/
theorem C3_leaderboard_sorted_truncated_projected (db : ProgressDb) (c : Nat)
    (count : Option Nat) (el : List Nat) (org_ids group_ids : Option (List Nat)) :
    ∃ (qualifying rows : List StudentProgress) (l : List LeaderboardEntry),
      leaderboardQueryset db c (some el) org_ids group_ids = .ok qualifying ∧
      StudentProgress_generate_leaderboard db c count (some el) org_ids group_ids = .ok l ∧
      rows.Perm qualifying ∧
      List.Sorted boardLe rows ∧
      l = (pySlice count rows).map (projectEntry db) ∧
      (∀ n, count = some n → l.length ≤ n) ∧
      (count = none → l = rows.map (projectEntry db)) := by
  refine ⟨applyGroupFilter db (applyOrgFilter db
      ((baseFilter db c).filter (fun r => !(el.contains r.user_id))) org_ids) group_ids,
    List.insertionSort boardLe (applyGroupFilter db (applyOrgFilter db
      ((baseFilter db c).filter (fun r => !(el.contains r.user_id))) org_ids) group_ids),
    _, rfl, rfl, List.perm_insertionSort boardLe _, List.sorted_insertionSort boardLe _,
    rfl, ?_, ?_⟩
  · intro n hn
    subst hn
    rw [List.length_map]
    simp only [pySlice, List.length_take]
    exact min_le_left _ _
  · intro hn
    subst hn
    rfl

/-- C3 witness: a concrete instance of the amended statement with a limit
of one entry. -/
theorem C3_leaderboard_sorted_truncated_projected_witness :
    ∃ (qualifying rows : List StudentProgress) (l : List LeaderboardEntry),
      leaderboardQueryset sampleDb 1 (some []) none none = .ok qualifying ∧
      StudentProgress_generate_leaderboard sampleDb 1 (some 1) (some []) none none = .ok l ∧
      rows.Perm qualifying ∧
      List.Sorted boardLe rows ∧
      l = (pySlice (some 1) rows).map (projectEntry sampleDb) ∧
      (∀ n, (some 1 : Option Nat) = some n → l.length ≤ n) ∧
      ((some 1 : Option Nat) = none → l = rows.map (projectEntry sampleDb)) :=
  C3_leaderboard_sorted_truncated_projected sampleDb 1 (some 1) [] none none

/-- C5: with a non-empty group filter, get_total_completions sums the
completions of the set of distinct qualifying rows (one per qualifying
user, by the unique_together constraint): the distinct() call collapses the
duplicate rows a user matching several filtered groups (or organizations)
would otherwise contribute. -/
theorem C5_group_filter_no_double_count (db : ProgressDb) (c : Nat) (el : List Nat)
    (org_ids : Option (List Nat)) (g : Nat) (gs : List Nat) (hwf : db.wf) :
    StudentProgress_get_total_completions db c (some el) org_ids (some (g :: gs)) =
      .ok (((db.progress.filter (fun r =>
          r.course_id == c && userActive db r.user_id && enrollmentActive db r.user_id c
            && !(el.contains r.user_id)
            && (match org_ids with
                | none => true
                | some [] => true
                | some (o :: os) => orgMatchCount db r.user_id (o :: os) != 0)
            && groupMatchCount db r.user_id (g :: gs) != 0)).map
        (fun r => r.completions)).sum) := by
  have hE : (List.filter (fun r => !(el.contains r.user_id)) (List.filter (fun r =>
      r.course_id == c && userActive db r.user_id && enrollmentActive db r.user_id c)
        db.progress)).Nodup :=
    List.Nodup.filter _ (List.Nodup.filter _ (wf_nodup hwf))
  have h0 : StudentProgress_get_total_completions db c (some el) org_ids (some (g :: gs)) =
      .ok (((applyGroupFilter db (applyOrgFilter db (List.filter
          (fun r => !(el.contains r.user_id)) (List.filter (fun r =>
            r.course_id == c && userActive db r.user_id && enrollmentActive db r.user_id c)
              db.progress)) org_ids) (some (g :: gs))).map (fun r => r.completions)).sum) := rfl
  rw [h0, sum_group_dedup db _ hE org_ids g gs]
  have hfe : List.filter (fun r =>
        (match org_ids with
          | none => true
          | some [] => true
          | some (o :: os) => orgMatchCount db r.user_id (o :: os) != 0)
        && groupMatchCount db r.user_id (g :: gs) != 0)
      (List.filter (fun r => !(el.contains r.user_id)) (List.filter (fun r =>
        r.course_id == c && userActive db r.user_id && enrollmentActive db r.user_id c)
          db.progress)) =
      db.progress.filter (fun r =>
        r.course_id == c && userActive db r.user_id && enrollmentActive db r.user_id c
          && !(el.contains r.user_id)
          && (match org_ids with
              | none => true
              | some [] => true
              | some (o :: os) => orgMatchCount db r.user_id (o :: os) != 0)
          && groupMatchCount db r.user_id (g :: gs) != 0) := by
    rw [List.filter_filter, List.filter_filter]
    apply List.filter_congr
    intro x hx
    cases h1 : (x.course_id == c) <;> cases h2 : userActive db x.user_id <;>
      cases h3 : enrollmentActive db x.user_id c <;> cases h4 : (el.contains x.user_id) <;>
      cases h5 : (match org_ids with
        | none => true
        | some [] => true
        | some (o :: os) => orgMatchCount db x.user_id (o :: os) != 0) <;>
      cases h6 : (groupMatchCount db x.user_id (g :: gs) != 0) <;>
      simp [h1, h2, h3, h4, h5, h6]
  rw [hfe]

/-- C5 witness: alice belongs to both filtered groups yet her completions
are counted once, giving the total of 10 instead of an over-count of 15. -/
theorem C5_group_filter_no_double_count_witness :
    StudentProgress_get_total_completions sampleDb 1 (some []) none (some [20, 21]) =
      .ok 10 := by
  rw [C5_group_filter_no_double_count sampleDb 1 [] none 20 [21] sampleDb_wf]
  rfl

/-- C7: for a platform hostname whose cache entry is missing, the first
request queries the AlternativeDomain table and stores the result, the
empty negative result included, with the configured time-to-live; a second
request while the entry is live is answered from the cache with no table
query, no cache write and no redirect; and when a (non-empty) mapping
exists the response is a redirect to that domain over https. -/
theorem C7_negative_cache (S : DomainSettings) (db : AltDomainDb) (cache : Cache String)
    (t0 t1 : Nat) (hostname : String)
    (hsuf : strEndsWith hostname S.SITE_NAME = true)
    (hmiss : cache.get t0 (S.cacheKeyPref ++ "-" ++ hostname) = none) :
    (alternativeDomainLookup db hostname = none →
      (CustomDomainsRedirectMiddleware_process_request S db cache t0 hostname).dbQueried =
        true ∧
      (CustomDomainsRedirectMiddleware_process_request S db cache t0 hostname).response =
        none ∧
      (CustomDomainsRedirectMiddleware_process_request S db cache t0 hostname).cache =
        cache.set (S.cacheKeyPref ++ "-" ++ hostname) "" (t0 + S.cacheTimeout) ∧
      (t1 < t0 + S.cacheTimeout →
        (CustomDomainsRedirectMiddleware_process_request S db
            ((CustomDomainsRedirectMiddleware_process_request S db cache t0 hostname).cache)
            t1 hostname).dbQueried = false ∧
        (CustomDomainsRedirectMiddleware_process_request S db
            ((CustomDomainsRedirectMiddleware_process_request S db cache t0 hostname).cache)
            t1 hostname).cacheWritten = false ∧
        (CustomDomainsRedirectMiddleware_process_request S db
            ((CustomDomainsRedirectMiddleware_process_request S db cache t0 hostname).cache)
            t1 hostname).response = none ∧
        (CustomDomainsRedirectMiddleware_process_request S db
            ((CustomDomainsRedirectMiddleware_process_request S db cache t0 hostname).cache)
            t1 hostname).cache =
          (CustomDomainsRedirectMiddleware_process_request S db cache t0 hostname).cache)) ∧
    (∀ d, alternativeDomainLookup db hostname = some d → d ≠ "" →
      (CustomDomainsRedirectMiddleware_process_request S db cache t0 hostname).response =
        some ("https://" ++ d)) := by
  constructor
  · intro hnone
    have hfirst : CustomDomainsRedirectMiddleware_process_request S db cache t0 hostname =
        { cache := cache.set (S.cacheKeyPref ++ "-" ++ hostname) "" (t0 + S.cacheTimeout)
          response := none, dbQueried := true, cacheRead := true, cacheWritten := true } := by
      unfold CustomDomainsRedirectMiddleware_process_request
      simp [hsuf, hmiss, hnone]
    refine ⟨by rw [hfirst], by rw [hfirst], by rw [hfirst], ?_⟩
    intro hlive
    have hhit := Cache.get_set_same cache (S.cacheKeyPref ++ "-" ++ hostname) ""
      (t0 + S.cacheTimeout) t1 hlive
    have hsecond : CustomDomainsRedirectMiddleware_process_request S db
        (cache.set (S.cacheKeyPref ++ "-" ++ hostname) "" (t0 + S.cacheTimeout)) t1 hostname =
        { cache := cache.set (S.cacheKeyPref ++ "-" ++ hostname) "" (t0 + S.cacheTimeout)
          response := none, dbQueried := false, cacheRead := true, cacheWritten := false } := by
      unfold CustomDomainsRedirectMiddleware_process_request
      simp [hsuf, hhit]
    rw [hfirst]
    rw [hsecond]
    exact ⟨rfl, rfl, rfl, rfl⟩
  · intro d hd hdne
    unfold CustomDomainsRedirectMiddleware_process_request
    simp [hsuf, hmiss, hd, hdne]

/-- C7 witness: on the sample fixtures the second request for an unmapped
platform hostname within the time-to-live does not query the table. -/
theorem C7_negative_cache_witness :
    (CustomDomainsRedirectMiddleware_process_request exDomainSettings exAltDb
        ((CustomDomainsRedirectMiddleware_process_request exDomainSettings exAltDb ⟨[]⟩ 0
          "school.youngsphere.com").cache)
        5 "school.youngsphere.com").dbQueried = false :=
  (((C7_negative_cache exDomainSettings exAltDb ⟨[]⟩ 0 5 "school.youngsphere.com"
    (by decide) rfl).1 rfl).2.2.2 (by decide)).1

/-- C1 (amended): with exclude_users supplied as a list, for two users of
the same course with equal completions, the one with the earlier modified
timestamp gets a strictly smaller position from get_user_position, and in
generate_leaderboard every entry of the later user comes after an entry of
the earlier user (whatever the limit), provided both users qualify (rows in
the course, active, enrolled, not excluded). -/
theorem C1_tie_break_consistent (db : ProgressDb) (c : Nat) (rowA rowB : StudentProgress)
    (el : List Nat) (count : Option Nat)
    (hwf : db.wf)
    (hA : rowA ∈ db.progress) (hB : rowB ∈ db.progress)
    (hAc : rowA.course_id = c) (hBc : rowB.course_id = c)
    (heq : rowA.completions = rowB.completions)
    (hmod : rowA.modified < rowB.modified)
    (hactA : userActive db rowA.user_id = true) (hactB : userActive db rowB.user_id = true)
    (henrA : enrollmentActive db rowA.user_id c = true)
    (henrB : enrollmentActive db rowB.user_id c = true)
    (hexA : el.contains rowA.user_id = false) (hexB : el.contains rowB.user_id = false) :
    (∃ pA pB, StudentProgress_get_user_position db c rowA.user_id (some el) = .ok pA ∧
      StudentProgress_get_user_position db c rowB.user_id (some el) = .ok pB ∧
      pA.position < pB.position) ∧
    (∃ l, StudentProgress_generate_leaderboard db c count (some el) none none = .ok l ∧
      (∀ (i j : Nat) (hi : i < l.length) (hj : j < l.length),
        (l[i]).user_id = rowB.user_id → (l[j]).user_id = rowA.user_id → j < i) ∧
      (∀ (i : Nat) (hi : i < l.length), (l[i]).user_id = rowB.user_id →
        ∃ j, ∃ hj : j < l.length, j < i ∧ (l[j]).user_id = rowA.user_id)) := by
  constructor
  · refine ⟨_, _, gup_eq_of_row hwf hA hAc rfl el, gup_eq_of_row hwf hB hBc rfl el, ?_⟩
    dsimp only
    rw [List.filter_filter, List.filter_filter, ← List.countP_eq_length_filter,
      ← List.countP_eq_length_filter]
    refine Nat.succ_lt_succ ?_
    refine countP_lt_of_witness ?_ hA ?_ ?_
    · intro x hx hpx
      simp only [Bool.and_eq_true] at hpx ⊢
      exact ⟨hpx.1, ⟨beats_mono heq hmod hpx.2.1.1, hpx.2.1.2⟩, hpx.2.2⟩
    · simp [beats]
    · simp [beats, hAc, hactA, heq, hmod]
      simpa using hexA
  · have hQmem : ∀ r ∈ List.filter (fun r => !(el.contains r.user_id)) (baseFilter db c),
        r ∈ db.progress ∧ r.course_id = c := by
      intro r hr2
      obtain ⟨hrb, hre⟩ := List.mem_filter.mp hr2
      simp only [baseFilter] at hrb
      have h2 := List.mem_filter.mp hrb
      refine ⟨h2.1, ?_⟩
      have h3 := h2.2
      simp only [Bool.and_eq_true, beq_iff_eq] at h3
      exact h3.1.1
    have huA : ∀ r ∈ List.filter (fun r => !(el.contains r.user_id)) (baseFilter db c),
        r.user_id = rowA.user_id → r = rowA := by
      intro r hr2 hid
      exact wf_unique hwf (hQmem r hr2).1 hA hid (by rw [(hQmem r hr2).2, hAc])
    have huB : ∀ r ∈ List.filter (fun r => !(el.contains r.user_id)) (baseFilter db c),
        r.user_id = rowB.user_id → r = rowB := by
      intro r hr2 hid
      exact wf_unique hwf (hQmem r hr2).1 hB hid (by rw [(hQmem r hr2).2, hBc])
    have horder := sorted_rows_order count huA huB heq hmod
    have hAQ : rowA ∈ List.filter (fun r => !(el.contains r.user_id)) (baseFilter db c) := by
      refine List.mem_filter.mpr ⟨?_, ?_⟩
      · simp only [baseFilter]
        refine List.mem_filter.mpr ⟨hA, ?_⟩
        simp [hAc, hactA, henrA]
      · simpa using hexA
    refine ⟨_, rfl, ?_, ?_⟩
    · intro i j hi hj hiB hjA
      have hi2 : i < (pySlice count (List.insertionSort boardLe (List.filter
          (fun r => !(el.contains r.user_id)) (baseFilter db c)))).length := by
        simpa using hi
      have hj2 : j < (pySlice count (List.insertionSort boardLe (List.filter
          (fun r => !(el.contains r.user_id)) (baseFilter db c)))).length := by
        simpa using hj
      rw [List.getElem_map, projectEntry_user_id] at hiB hjA
      exact horder.1 i j hi2 hj2 hiB hjA
    · intro i hi hiB
      have hi2 : i < (pySlice count (List.insertionSort boardLe (List.filter
          (fun r => !(el.contains r.user_id)) (baseFilter db c)))).length := by
        simpa using hi
      rw [List.getElem_map, projectEntry_user_id] at hiB
      obtain ⟨j0, hj0, hjlt, hjid⟩ := horder.2 hAQ i hi2 hiB
      refine ⟨j0, ?_, hjlt, ?_⟩
      · simpa using hj0
      · rw [List.getElem_map, projectEntry_user_id]
        exact hjid

/-- C1 witness: alice and bob tie at 5 completions in course 1, alice's row
was modified first, and alice indeed gets the strictly smaller position. -/
theorem C1_tie_break_consistent_witness :
    ∃ pA pB, StudentProgress_get_user_position sampleDb 1 1 (some []) = .ok pA ∧
      StudentProgress_get_user_position sampleDb 1 2 (some []) = .ok pB ∧
      pA.position < pB.position :=
  (C1_tie_break_consistent sampleDb 1 ⟨1, 1, 5, 100⟩ ⟨2, 1, 5, 200⟩ [] none sampleDb_wf
    (by decide) (by decide) rfl rfl rfl (by decide) (by decide) (by decide) (by decide)
    (by decide) rfl rfl).1
